import Mathlib

/-!
Verification development for the openai-forward control plane
(`openai_forward/config/interface.py` and `openai_forward/__main__.py`).

The configuration model and its environment projection are embedded
shallowly.  Environment values are modelled by a JSON-like value type
`JVal`: the Python code serialises structured fields with `json.dumps`
and scalar fields with `str(...)`; both encodings are injective on the
values this program produces, so a `JVal` stands for the encoded string.
Two abstractions of that kind are used and documented inline:
`JVal.int n` stands for the decimal string of `n` (`str(int)` /
`int(str)` are mutually inverse), and `JVal.iobj` stands for a JSON
object whose keys are the decimal strings of integer dictionary keys
(`json.dumps` renders integer keys as their decimal strings; the
settings layer parses them back).
-/

namespace OpenaiForward

/-- Option-valued `mapM` over lists, written recursively so that its
equations are directly usable in proofs.  Models a Python loop that may
raise: the first failing element aborts the whole computation. -/
def listMapM {α β : Type} (f : α → Option β) : List α → Option (List β)
  | [] => some []
  | a :: as =>
    match f a, listMapM f as with
    | some b, some bs => some (b :: bs)
    | _, _ => none

/-- The whitespace set of Python `str.strip()` (ASCII part). -/
def pySpace (c : Char) : Bool :=
  c = ' ' || c = '\t' || c = '\n' || c = '\r' || c = '\x0b' || c = '\x0c'

/-- Python `s.strip()` on the character list of `s`. -/
def stripChars (l : List Char) : List Char :=
  ((l.dropWhile pySpace).reverse.dropWhile pySpace).reverse

/-- Python `s.split(',')` on a character list: the comma-separated
pieces, with `[]` splitting to the single empty piece, as in Python. -/
def splitComma : List Char → List (List Char)
  | [] => [[]]
  | x :: xs =>
    match splitComma xs with
    | [] => [[x]]
    | y :: ys => if x = ',' then [] :: y :: ys else (x :: y) :: ys

/-- The value of a non-empty all-digit character list. -/
def natOfDigits (l : List Char) : Option Nat :=
  if l ≠ [] ∧ l.all Char.isDigit then
    some (l.foldl (fun a c => 10 * a + (c.toNat - 48)) 0)
  else none

/-- Python `int(s)`: surrounding whitespace is ignored, an optional
sign is allowed, and the remainder must be a non-empty digit string.
(Underscore separators and non-ASCII digits, which Python also accepts,
are not modelled; no claim exercises them.) -/
def pyIntChars (l : List Char) : Option Int :=
  match stripChars l with
  | '+' :: rest => (natOfDigits rest).map Int.ofNat
  | '-' :: rest => (natOfDigits rest).map fun n => -(n : Int)
  | t => (natOfDigits t).map Int.ofNat

/-- `value.strip().replace('，', ',').split(',')` followed by `int(i)`
on every piece, from `ApiKey.convert_to_env` (interface.py:141-142);
the full-width-comma replacement is a character-for-character map.
`none` models the `ValueError` raised by `int` on a non-numeric piece. -/
def parseLevels (v : String) : Option (List Int) :=
  listMapM pyIntChars
    (splitComma ((stripChars v.toList).map fun c => if c = '，' then ',' else c))

/-- JSON-like value, abstracting the textual encodings used by the
projector (`json.dumps` for structures, `str` for scalars). -/
inductive JVal : Type where
  | str : String → JVal
  | int : Int → JVal
  | bool : Bool → JVal
  | arr : List JVal → JVal
  | obj : List (String × JVal) → JVal
  | iobj : List (Int × JVal) → JVal

/-- Python dictionary assignment `d[k] = v`: overwrite in place if the
key is present (keeping its position), else append. -/
def dictInsert {β : Type} (d : List (String × β)) (k : String) (v : β) :
    List (String × β) :=
  if d.any fun p => p.1 == k then d.map fun p => if p.1 == k then (k, v) else p
  else d ++ [(k, v)]

/-- Python dict comprehension `{k(i): v(i) for i in xs}`: left-to-right
insertion with overwrite-in-place semantics. -/
def pyDict {β : Type} (xs : List (String × β)) : List (String × β) :=
  xs.foldl (fun d kv => dictInsert d kv.1 kv.2) []

/-- Lookup in an ordered key-value environment (`os.environ.get`). -/
def envGet {β : Type} : List (String × β) → String → Option β
  | [], _ => none
  | (k', v) :: e, k => if k' = k then some v else envGet e k

/-- `ForwardItem.type`, the `Literal["openai", "general"]` field. -/
inductive FType : Type where
  | openai : FType
  | general : FType
deriving DecidableEq

def FType.enc : FType → String
  | .openai => "openai"
  | .general => "general"

def FType.ofStr : String → Option FType
  | "openai" => some .openai
  | "general" => some .general
  | _ => none

/-- `ForwardItem` (interface.py:25-29). -/
structure ForwardItem : Type where
  base_url : String
  route : String
  type : FType
deriving DecidableEq

/-- `ForwardItem`'s `to_dict` under `asdict` with the drop-`None`
filter: none of the three fields is ever `None`, so all are emitted in
field order. -/
def ForwardItem.to_dict (f : ForwardItem) : JVal :=
  .obj [("base_url", .str f.base_url), ("route", .str f.route),
        ("type", .str f.type.enc)]

/-- A value of the untyped `ApiKey.openai_key` dict: the code path in
`ApiKey.convert_to_env` requires a delimiter-separated string (`raw`);
an already-parsed level list (`levels`, the shape of the class default
`{"sk-xx1": [0]}`) makes `value.strip()` raise `AttributeError`. -/
inductive KeyLevels : Type where
  | raw : String → KeyLevels
  | levels : List Int → KeyLevels
deriving DecidableEq

/-- `ApiKey` (interface.py:130-134). -/
structure ApiKey : Type where
  openai_key : List (String × KeyLevels)
  forward_key : List (Int × List String)
  level : List (Int × List String)
deriving DecidableEq

/-- `CacheConfig` (interface.py:51-58). -/
structure CacheConfig : Type where
  backend : String
  root_path_or_url : String
  default_request_caching_value : Bool
  openai : Bool
  general : Bool
  routes : List String
deriving DecidableEq

/-- One element of a `RateLimitType.value` list, e.g.
`{"level": 0, "limit": "60/second"}`. -/
structure RLEntry : Type where
  level : Int
  limit : String
deriving DecidableEq

/-- `RateLimitType` (interface.py:78-81). -/
structure RateLimitType : Type where
  route : String
  value : List RLEntry
deriving DecidableEq

/-- The `strategy` literal (interface.py:110-112). -/
inductive Strategy : Type where
  | fixedWindow : Strategy
  | movingWindow : Strategy
  | fixedWindowElasticExpiry : Strategy
deriving DecidableEq

def Strategy.enc : Strategy → String
  | .fixedWindow => "fixed_window"
  | .movingWindow => "moving-window"
  | .fixedWindowElasticExpiry => "fixed-window-elastic-expiry"

def Strategy.ofStr : String → Option Strategy
  | "fixed_window" => some .fixedWindow
  | "moving-window" => some .movingWindow
  | "fixed-window-elastic-expiry" => some .fixedWindowElasticExpiry
  | _ => none

/-- The `iter_chunk` literal (interface.py:109). -/
inductive IterChunk : Type where
  | oneByOne : IterChunk
  | efficiency : IterChunk
deriving DecidableEq

def IterChunk.enc : IterChunk → String
  | .oneByOne => "one-by-one"
  | .efficiency => "efficiency"

def IterChunk.ofStr : String → Option IterChunk
  | "one-by-one" => some .oneByOne
  | "efficiency" => some .efficiency
  | _ => none

/-- `RateLimit` (interface.py:84-112). -/
structure RateLimit : Type where
  backend : String
  global_rate_limit : String
  token_rate_limit : List RateLimitType
  req_rate_limit : List RateLimitType
  iter_chunk : IterChunk
  strategy : Strategy
deriving DecidableEq

/-- `Log` (interface.py:151-154). -/
structure Log : Type where
  general : Bool
  openai : Bool
deriving DecidableEq

/-- `Config` (interface.py:165-189). -/
structure Config : Type where
  forward : List ForwardItem
  api_key : ApiKey
  cache : CacheConfig
  rate_limit : RateLimit
  log : Log
  timezone : String
  timeout : Int
  benchmark_mode : Bool
  proxy : String
  default_stream_response : Bool
deriving DecidableEq

/-- One entry of the `openai_key_dict` loop in `ApiKey.convert_to_env`
(interface.py:139-142): a string value is stripped, full-width commas
normalised, split and parsed; a non-string value raises
(`AttributeError` on `.strip`), modelled as `none`. -/
def ApiKey.encEntry (kv : String × KeyLevels) : Option (String × JVal) :=
  match kv.2 with
  | .raw s => (parseLevels s).map fun l => (kv.1, JVal.arr (l.map JVal.int))
  | .levels _ => none

/-- `ApiKey.convert_to_env` (interface.py:136-148).  `none` models an
uncaught exception escaping to the caller. -/
def ApiKey.convert_to_env (a : ApiKey) : Option (List (String × JVal)) :=
  (listMapM ApiKey.encEntry a.openai_key).map fun ok =>
    [("OPENAI_API_KEY_CONFIG", JVal.obj ok),
     ("FORWARD_KEY_CONFIG",
       JVal.iobj (a.forward_key.map fun kv => (kv.1, JVal.arr (kv.2.map JVal.str)))),
     ("LEVEL_MODELS",
       JVal.iobj (a.level.map fun kv => (kv.1, JVal.arr (kv.2.map JVal.str))))]

/-- `CacheConfig.convert_to_env` (interface.py:60-75). -/
def CacheConfig.convert_to_env (c : CacheConfig) : List (String × JVal) :=
  [("CACHE_OPENAI", .bool c.openai),
   ("CACHE_GENERAL", .bool c.general),
   ("CACHE_BACKEND", .str c.backend),
   ("CACHE_ROOT_PATH_OR_URL", .str c.root_path_or_url),
   ("DEFAULT_REQUEST_CACHING_VALUE", .bool c.default_request_caching_value),
   ("CACHE_ROUTES", .arr (c.routes.map .str))]

def encRLEntry (e : RLEntry) : JVal :=
  .obj [("level", .int e.level), ("limit", .str e.limit)]

def encRLValue (v : List RLEntry) : JVal := .arr (v.map encRLEntry)

/-- The dict comprehension
`{i.route: i.value for i in l if i.route and i.value}`
(interface.py:119 and 122): Python truthiness keeps exactly the items
with a non-empty route and a non-empty value list. -/
def rlDict (l : List RateLimitType) : List (String × JVal) :=
  pyDict ((l.filter fun i => decide (i.route ≠ "") && decide (i.value ≠ [])).map
    fun i => (i.route, encRLValue i.value))

/-- `RateLimit.convert_to_env` (interface.py:114-127). -/
def RateLimit.convert_to_env (r : RateLimit) : List (String × JVal) :=
  [("GLOBAL_RATE_LIMIT", .str r.global_rate_limit),
   ("RATE_LIMIT_STRATEGY", .str r.strategy.enc),
   ("TOKEN_RATE_LIMIT", .obj (rlDict r.token_rate_limit)),
   ("REQ_RATE_LIMIT", .obj (rlDict r.req_rate_limit)),
   ("ITER_CHUNK_TYPE", .str r.iter_chunk.enc)]

/-- `Log.convert_to_env` (interface.py:156-162). -/
def Log.convert_to_env (lg : Log) : List (String × JVal) :=
  [("LOG_GENERAL", .bool lg.general), ("LOG_OPENAI", .bool lg.openai)]

/-- `Config.convert_to_env` (interface.py:191-210).  The successive
`env_dict.update(...)` calls are modelled by list append: the section
key sets are pairwise disjoint, so update never overwrites.  `none`
models the exception escaping from `ApiKey.convert_to_env`. -/
def Config.convert_to_env (c : Config) : Option (List (String × JVal)) :=
  (c.api_key.convert_to_env).map fun ak =>
    ("FORWARD_CONFIG", JVal.arr (c.forward.map ForwardItem.to_dict)) ::
    ak ++ c.cache.convert_to_env ++ c.rate_limit.convert_to_env ++
    c.log.convert_to_env ++
    [("TZ", .str c.timezone), ("TIMEOUT", .int c.timeout),
     ("BENCHMARK_MODE", .bool c.benchmark_mode),
     ("DEFAULT_STREAM_RESPONSE", .bool c.default_stream_response)] ++
    (if c.proxy = "" then [] else [("PROXY", .str c.proxy)])

/-! ## Defaults (the attrs field defaults of interface.py) -/

def defaultForwardList : List ForwardItem :=
  [⟨"https://api.openai.com", "/", .openai⟩,
   ⟨"https://generativelanguage.googleapis.com", "/gemini", .general⟩]

def defaultApiKey : ApiKey :=
  { openai_key := [("sk-xx1", .levels [0])],
    forward_key := [(0, ["fk-1"])],
    level := [(1, ["gpt-3.5-turbo"])] }

def defaultCacheConfig : CacheConfig :=
  { backend := "LevelDB", root_path_or_url := "./FLAXKV_DB",
    default_request_caching_value := true, openai := false, general := false,
    routes := ["/v1/chat/completions"] }

def defaultRateLimit : RateLimit :=
  { backend := "", global_rate_limit := "inf",
    token_rate_limit :=
      [⟨"/v1/chat/completions", [⟨0, "60/second"⟩]⟩,
       ⟨"/v1/completions", [⟨0, "60/second"⟩]⟩],
    req_rate_limit :=
      [⟨"/v1/chat/completions", [⟨0, "100/2minutes"⟩]⟩,
       ⟨"/v1/completions", [⟨0, "60/minute"⟩]⟩,
       ⟨"/v1/embeddings", [⟨0, "100/2minutes"⟩]⟩],
    iter_chunk := .oneByOne, strategy := .movingWindow }

def defaultLog : Log := { general := true, openai := true }

def defaultConfig : Config :=
  { forward := defaultForwardList, api_key := defaultApiKey,
    cache := defaultCacheConfig, rate_limit := defaultRateLimit,
    log := defaultLog, timezone := "Asia/Shanghai", timeout := 6,
    benchmark_mode := false, proxy := "", default_stream_response := true }

/-! ## Hydration

`Config.come_from_env` (interface.py:212-243) reads module-level
globals of `openai_forward.config.settings`, which is not part of the
given sources.  Those globals are modelled from the spec (section 4.2):
each one reads its documented environment key; if the key is present
and non-empty the value is parsed back from its textual encoding,
otherwise the default is retained.  A present but ill-shaped encoding
is a hydration error (`none`). -/

/-- Modelled from the spec: a scalar string settings global — the key's
value if present and non-empty, else the given default. -/
def envStrD (env : List (String × JVal)) (k d : String) : String :=
  match envGet env k with
  | some (.str s) => if s = "" then d else s
  | _ => d

/-- Modelled from the spec: a boolean settings global. -/
def envBoolD (env : List (String × JVal)) (k : String) (d : Bool) : Bool :=
  match envGet env k with
  | some (.bool v) => v
  | _ => d

/-- Modelled from the spec: an integer settings global (`TIMEOUT`). -/
def envIntD (env : List (String × JVal)) (k : String) (d : Int) : Int :=
  match envGet env k with
  | some (.int n) => n
  | _ => d

def decStrList : JVal → Option (List String)
  | .arr xs => listMapM (fun j => match j with | .str s => some s | _ => none) xs
  | _ => none

def decIntList : JVal → Option (List Int)
  | .arr xs => listMapM (fun j => match j with | .int n => some n | _ => none) xs
  | _ => none

def decRLEntry : JVal → Option RLEntry
  | .obj [("level", .int n), ("limit", .str s)] => some ⟨n, s⟩
  | _ => none

def decRLValue : JVal → Option (List RLEntry)
  | .arr xs => listMapM decRLEntry xs
  | _ => none

def decRLMap : JVal → Option (List (String × List RLEntry))
  | .obj o => listMapM (fun kv => (decRLValue kv.2).map fun v => (kv.1, v)) o
  | _ => none

def decStrListIObj : JVal → Option (List (Int × List String))
  | .iobj o => listMapM (fun kv => (decStrList kv.2).map fun v => (kv.1, v)) o
  | _ => none

def decOpenaiKey : JVal → Option (List (String × List Int))
  | .obj o => listMapM (fun kv => (decIntList kv.2).map fun v => (kv.1, v)) o
  | _ => none

def decFwdItem : JVal → Option ForwardItem
  | .obj [("base_url", .str b), ("route", .str r), ("type", .str t)] =>
    (FType.ofStr t).map fun ty => ⟨b, r, ty⟩
  | _ => none

def decFwdList : JVal → Option (List ForwardItem)
  | .arr xs => listMapM decFwdItem xs
  | _ => none

/-- Modelled from the spec: settings global `token_rate_limit_conf`
(parsed `TOKEN_RATE_LIMIT`); absent key means empty mapping. -/
def tokenRateLimitConf (env : List (String × JVal)) :
    Option (List (String × List RLEntry)) :=
  match envGet env "TOKEN_RATE_LIMIT" with
  | none => some []
  | some j => decRLMap j

/-- Modelled from the spec: settings global `req_rate_limit_dict`. -/
def reqRateLimitDict (env : List (String × JVal)) :
    Option (List (String × List RLEntry)) :=
  match envGet env "REQ_RATE_LIMIT" with
  | none => some []
  | some j => decRLMap j

/-- Modelled from the spec: settings global `OPENAI_API_KEY` (parsed
`OPENAI_API_KEY_CONFIG`). -/
def openaiKeyConf (env : List (String × JVal)) :
    Option (List (String × List Int)) :=
  match envGet env "OPENAI_API_KEY_CONFIG" with
  | none => some []
  | some j => decOpenaiKey j

/-- Modelled from the spec: settings global `LEVEL_TO_FWD_KEY` (parsed
`FORWARD_KEY_CONFIG`); integer-keyed, see the note on `JVal.iobj`. -/
def levelToFwdKey (env : List (String × JVal)) :
    Option (List (Int × List String)) :=
  match envGet env "FORWARD_KEY_CONFIG" with
  | none => some []
  | some j => decStrListIObj j

/-- Modelled from the spec: settings global `LEVEL_MODELS`. -/
def levelModelsConf (env : List (String × JVal)) :
    Option (List (Int × List String)) :=
  match envGet env "LEVEL_MODELS" with
  | none => some []
  | some j => decStrListIObj j

/-- Modelled from the spec: settings global `CACHE_ROUTE_SET` — the
parsed `CACHE_ROUTES` array collected into a set (duplicates collapse);
the set is modelled as a duplicate-free list. -/
def cacheRouteSet (env : List (String × JVal)) : Option (List String) :=
  match envGet env "CACHE_ROUTES" with
  | none => some []
  | some j => (decStrList j).map List.dedup

/-- Modelled from the spec: settings global `FORWARD_CONFIG`; absent
key falls back to the default forwarding rules. -/
def forwardConf (env : List (String × JVal)) : Option (List ForwardItem) :=
  match envGet env "FORWARD_CONFIG" with
  | none => some defaultForwardList
  | some j => decFwdList j

/-- Modelled from the spec: settings global `RATE_LIMIT_STRATEGY`. -/
def strategyFromEnv (env : List (String × JVal)) : Strategy :=
  match envGet env "RATE_LIMIT_STRATEGY" with
  | some (.str s) => (Strategy.ofStr s).getD .movingWindow
  | _ => .movingWindow

/-- Modelled from the spec: settings global `ITER_CHUNK_TYPE`. -/
def iterChunkFromEnv (env : List (String × JVal)) : IterChunk :=
  match envGet env "ITER_CHUNK_TYPE" with
  | some (.str s) => (IterChunk.ofStr s).getD .oneByOne
  | _ => .oneByOne

/-- Python `a or b` on strings. -/
def pyOrStr (a b : String) : String := if a = "" then b else a

/-- Python `a or b` on lists (and on dicts modelled as lists). -/
def pyOrList {α : Type} (a b : List α) : List α := if a.isEmpty then b else a

/-- `Config.come_from_env` (interface.py:212-243), hydrating `c` from
the environment mapping `env`.  Settings globals are the spec-modelled
readers above; the `x or default` fallbacks, the direct assignments and
the absence of any read of `DEFAULT_STREAM_RESPONSE` and of any
`RATE_LIMIT_BACKEND` emission follow the source line by line.  `none`
models an exception while re-parsing a structured field. -/
def Config.come_from_env (c : Config) (env : List (String × JVal)) :
    Option Config := do
  let tok ← tokenRateLimitConf env
  let req ← reqRateLimitDict env
  let okc ← openaiKeyConf env
  let fkc ← levelToFwdKey env
  let lm ← levelModelsConf env
  let crs ← cacheRouteSet env
  let fwd ← forwardConf env
  some { forward := fwd,
         api_key :=
           { openai_key :=
               if okc.isEmpty then c.api_key.openai_key
               else okc.map fun kv => (kv.1, KeyLevels.levels kv.2),
             forward_key := pyOrList fkc c.api_key.forward_key,
             level := pyOrList lm c.api_key.level },
         cache :=
           { backend := envStrD env "CACHE_BACKEND" "LevelDB",
             root_path_or_url := envStrD env "CACHE_ROOT_PATH_OR_URL" "./FLAXKV_DB",
             default_request_caching_value :=
               envBoolD env "DEFAULT_REQUEST_CACHING_VALUE" true,
             openai := envBoolD env "CACHE_OPENAI" false || c.cache.openai,
             general := envBoolD env "CACHE_GENERAL" false || c.cache.general,
             routes := pyOrList crs c.cache.routes },
         rate_limit :=
           { backend := pyOrStr (envStrD env "RATE_LIMIT_BACKEND" "") c.rate_limit.backend,
             global_rate_limit := envStrD env "GLOBAL_RATE_LIMIT" "inf",
             token_rate_limit :=
               pyOrList (tok.map fun kv => RateLimitType.mk kv.1 kv.2)
                 c.rate_limit.token_rate_limit,
             req_rate_limit :=
               pyOrList (req.map fun kv => RateLimitType.mk kv.1 kv.2)
                 c.rate_limit.req_rate_limit,
             iter_chunk := iterChunkFromEnv env,
             strategy := strategyFromEnv env },
         log := { general := envBoolD env "LOG_GENERAL" true,
                  openai := envBoolD env "LOG_OPENAI" true },
         timezone :=
           match envGet env "TZ" with
           | some (.str s) => s
           | _ => "Asia/Shanghai",
         timeout := envIntD env "TIMEOUT" 6,
         benchmark_mode := envBoolD env "BENCHMARK_MODE" false,
         proxy := envStrD env "PROXY" "",
         default_stream_response := c.default_stream_response }

/-- The normal form that hydration can reproduce: every raw
authorization-level string of `openai_key` replaced by its parsed
integer sequence. -/
def normalizeLevels : KeyLevels → KeyLevels
  | .raw s => match parseLevels s with
    | some l => .levels l
    | none => .raw s
  | .levels l => .levels l

def normalizeConfig (c : Config) : Config :=
  { c with api_key :=
      { c.api_key with openai_key :=
          c.api_key.openai_key.map fun kv => (kv.1, normalizeLevels kv.2) } }

/-- The projected environment written as one explicit key list, with
`ok` the already-encoded `openai_key` dictionary: the normal form of
`Config.convert_to_env`'s successful result. -/
def projEnv (c : Config) (ok : List (String × JVal)) : List (String × JVal) :=
  ("FORWARD_CONFIG", JVal.arr (c.forward.map ForwardItem.to_dict)) ::
  ("OPENAI_API_KEY_CONFIG", JVal.obj ok) ::
  ("FORWARD_KEY_CONFIG",
    JVal.iobj (c.api_key.forward_key.map fun kv => (kv.1, JVal.arr (kv.2.map JVal.str)))) ::
  ("LEVEL_MODELS",
    JVal.iobj (c.api_key.level.map fun kv => (kv.1, JVal.arr (kv.2.map JVal.str)))) ::
  ("CACHE_OPENAI", .bool c.cache.openai) ::
  ("CACHE_GENERAL", .bool c.cache.general) ::
  ("CACHE_BACKEND", .str c.cache.backend) ::
  ("CACHE_ROOT_PATH_OR_URL", .str c.cache.root_path_or_url) ::
  ("DEFAULT_REQUEST_CACHING_VALUE", .bool c.cache.default_request_caching_value) ::
  ("CACHE_ROUTES", .arr (c.cache.routes.map .str)) ::
  ("GLOBAL_RATE_LIMIT", .str c.rate_limit.global_rate_limit) ::
  ("RATE_LIMIT_STRATEGY", .str c.rate_limit.strategy.enc) ::
  ("TOKEN_RATE_LIMIT", .obj (rlDict c.rate_limit.token_rate_limit)) ::
  ("REQ_RATE_LIMIT", .obj (rlDict c.rate_limit.req_rate_limit)) ::
  ("ITER_CHUNK_TYPE", .str c.rate_limit.iter_chunk.enc) ::
  ("LOG_GENERAL", .bool c.log.general) ::
  ("LOG_OPENAI", .bool c.log.openai) ::
  ("TZ", .str c.timezone) ::
  ("TIMEOUT", .int c.timeout) ::
  ("BENCHMARK_MODE", .bool c.benchmark_mode) ::
  ("DEFAULT_STREAM_RESPONSE", .bool c.default_stream_response) ::
  (if c.proxy = "" then [] else [("PROXY", .str c.proxy)])

/-- Whether an `openai_key` value is a string (the type the projection
code path requires). -/
def KeyLevels.isRaw : KeyLevels → Bool
  | .raw _ => true
  | .levels _ => false

/-- Whether an `openai_key` value is a string that parses to a level
list (decidable form of the projection-success condition). -/
def rawParsable : KeyLevels → Bool
  | .raw s => (parseLevels s).isSome
  | .levels _ => false

/-- The JSON value the projector emits for a normalised `openai_key`
value. -/
def encNormLevels : KeyLevels → JVal
  | .levels l => JVal.arr (l.map JVal.int)
  | .raw _ => JVal.arr []

/-- The integer sequence held by a normalised `openai_key` value. -/
def levelsOf : KeyLevels → List Int
  | .levels l => l
  | .raw _ => []

/-- The fixed enumeration of environment keys the projector documents
(spec section 6), in emission order, without the conditional proxy
key. -/
def documentedKeys : List String :=
  ["FORWARD_CONFIG", "OPENAI_API_KEY_CONFIG", "FORWARD_KEY_CONFIG",
   "LEVEL_MODELS", "CACHE_OPENAI", "CACHE_GENERAL", "CACHE_BACKEND",
   "CACHE_ROOT_PATH_OR_URL", "DEFAULT_REQUEST_CACHING_VALUE", "CACHE_ROUTES",
   "GLOBAL_RATE_LIMIT", "RATE_LIMIT_STRATEGY", "TOKEN_RATE_LIMIT",
   "REQ_RATE_LIMIT", "ITER_CHUNK_TYPE", "LOG_GENERAL", "LOG_OPENAI",
   "TZ", "TIMEOUT", "BENCHMARK_MODE", "DEFAULT_STREAM_RESPONSE"]

/-- A default-shaped configuration whose provider-key value is the
level string `"0"` (so that projection succeeds). -/
def cDefaultRaw : Config :=
  { defaultConfig with api_key :=
      { defaultApiKey with openai_key := [("sk-xx1", .raw "0")] } }

/-- `cDefaultRaw` with a non-default `default_stream_response`: the
projection emits the field, but hydration never reads it back. -/
def cStreamOff : Config := { cDefaultRaw with default_stream_response := false }

/-- A configuration carrying the spec's normalization example:
`provider_keys = {"sk-a": "1, 2，3"}` with mixed ASCII and full-width
commas. -/
def cMixedCommas : Config :=
  { defaultConfig with api_key :=
      { defaultApiKey with openai_key := [("sk-a", .raw "1, 2，3")] } }

/-- A configuration whose token rate-limit list contains one rule with
an empty route, one with an empty limits list, and one kept rule. -/
def cFilterDemo : Config :=
  { cDefaultRaw with rate_limit :=
      { defaultRateLimit with token_rate_limit :=
          [⟨"", [⟨0, "60/second"⟩]⟩,
           ⟨"/v1/chat/completions", []⟩,
           ⟨"/v1/completions", [⟨0, "60/second"⟩]⟩] } }

/-- A configuration with a non-empty proxy. -/
def cProxyOn : Config := { cDefaultRaw with proxy := "http://localhost:7890" }

/-! ## Process supervisor (`openai_forward/__main__.py`) -/

/-- Supervisor states of the spec's state machine (section 4.3). -/
inductive SupState : Type where
  | stopped : SupState
  | starting : SupState
  | running : SupState
  | failed : SupState
deriving DecidableEq

/-- Whether the liveness endpoint reports healthy at some poll instant
before `timeout`; `health t` is the oracle for the endpoint's reply at
time-unit `t`. -/
def healthyWithin (health : Nat → Bool) (timeout : Nat) : Bool :=
  (List.range timeout).any health

/-- Modelled from the spec: `wait_for_serve_start`
(openai_forward.helper, not in the given sources) — polls the liveness
endpoint for up to `timeout` time-units; on timeout it raises a fatal
startup error unless `suppress` is set, in which case the failure is
treated as success.  Returns `false` when the error is raised. -/
def waitForServeStart (health : Nat → Bool) (timeout : Nat) (suppress : Bool) :
    Bool :=
  healthyWithin health timeout || suppress

/-- `Cli._start_uvicorn` (main.py:51-75): spawn, then health-check
`http://localhost:{port}/healthz` with `timeout=10` and
`suppress_exception = (platform.system() == "Windows")`.  Result: the
supervisor state reached, paired with whether a fatal startup error is
raised. -/
def startUvicorn (sysName : String) (health : Nat → Bool) : SupState × Bool :=
  let suppress := sysName = "Windows"
  if waitForServeStart health 10 suppress then (.running, false)
  else (.failed, true)

/-- A child-process handle as `Cli._stop` observes it: whether `poll()`
already reports an exit, and how the process reacts to the interrupt
signal — `some t` exits `t` time-units after the signal, `none` ignores
it. -/
structure ProcHandle : Type where
  pollExited : Bool
  exitAfterSignal : Option Nat
deriving DecidableEq

/-- Observable outcome of one `Cli._stop` branch. -/
structure StopOutcome : Type where
  finalStopped : Bool
  elapsed : Nat
  signalSent : Bool
  killed : Bool
deriving DecidableEq

/-- One branch of `Cli._stop` (main.py:88-99): if `poll()` shows the
process already exited, do nothing; otherwise send `SIGINT`, `wait`
up to `grace` time-units, and `kill` on `TimeoutExpired`. -/
def stopProc (grace : Nat) (p : ProcHandle) : StopOutcome :=
  if p.pollExited then ⟨true, 0, false, false⟩
  else
    match p.exitAfterSignal with
    | some t => if t ≤ grace then ⟨true, t, true, false⟩ else ⟨true, grace, true, true⟩
    | none => ⟨true, grace, true, true⟩

/-- The two stop targets of `Cli._stop`. -/
inductive StopTarget : Type where
  | forwarder : StopTarget
  | dashboard : StopTarget
deriving DecidableEq

/-- The grace periods of `Cli._stop`: `wait(timeout=15)` for the
uvicorn forwarder, `wait(timeout=5)` for the streamlit dashboard. -/
def graceOf : StopTarget → Nat
  | .forwarder => 15
  | .dashboard => 5

/-- `Cli._restart_uvicorn` (main.py:77-79) runs `_stop_uvicorn()` to
completion and only then `_start_uvicorn(...)`: the stop of the old
forwarder finishes at `stopDoneAt` and the new forwarder is spawned at
that instant. -/
def stopDoneAt (p : ProcHandle) : Nat := (stopProc 15 p).elapsed

/-- The old forwarder is live strictly before its stop completes
(and only if it had not already exited). -/
def oldLiveAt (p : ProcHandle) (t : Nat) : Bool :=
  !p.pollExited && decide (t < stopDoneAt p)

/-- The new forwarder spawned by the restart is live from the instant
the stop completed. -/
def newLiveAt (p : ProcHandle) (t : Nat) : Bool :=
  decide (stopDoneAt p ≤ t)

/-- Number of forwarder processes live at time `t` during
`restart(forwarder)`, where `p` is the old forwarder's handle. -/
def liveForwarders (p : ProcHandle) (t : Nat) : Nat :=
  (if oldLiveAt p t then 1 else 0) + (if newLiveAt p t then 1 else 0)

/-! ## CLI `convert` and `run` (`openai_forward/__main__.py`) -/

/-- A file-I/O action of `Cli.convert`: one
`convert_folder_to_jsonl(log_folder, target_path)` call (the helper's
internals are external to this slice). -/
inductive ConvAction : Type where
  | convertFolder : String → Option String → ConvAction
deriving DecidableEq

/-- `Cli.convert` (main.py:102-130), as the usage check followed by the
list of file-I/O actions it performs: `log_folder=None` with a
`target_path` raises `ValueError` before any conversion; with both
`None` it converts every configured route's default log location
(`routeNames` is the spec-modelled `OPENAI_ROUTE_PREFIX` list, already
rendered to strings). -/
def convertCmd (routeNames : List String) (log_folder target_path : Option String) :
    Except String (List ConvAction) :=
  match log_folder, target_path with
  | none, some _ => .error "target_path must be None when log_folder is None"
  | none, none =>
    .ok (routeNames.map fun p =>
      ConvAction.convertFolder ("./Log/" ++ p ++ "/chat")
        (some ("./Log/chat_" ++ p ++ ".json")))
  | some f, tp => .ok [ConvAction.convertFolder f tp]

/-- The file-I/O actions a `convert` invocation performs: none when it
raised the usage error. -/
def actionsOf : Except String (List ConvAction) → List ConvAction
  | .error _ => []
  | .ok l => l

/-- The process-wide environment in effect when `Cli.run`
(main.py:21-49) launches the server: on Windows it first executes
`os.environ["TZ"] = ""`, on every other platform the environment is
left untouched. -/
def runEnvAtLaunch (sysName : String) (env : List (String × String)) :
    List (String × String) :=
  if sysName = "Windows" then dictInsert env "TZ" "" else env

/-! ## List and dictionary lemmas -/

theorem listMapM_pointwise {α β : Type} (f : α → Option β) (g : α → β) :
    ∀ xs : List α, (∀ a ∈ xs, f a = some (g a)) → listMapM f xs = some (xs.map g) := by
  intro xs
  induction xs with
  | nil => intro _; rfl
  | cons a as ih =>
    intro h
    have ha : f a = some (g a) := h a (List.mem_cons_self a as)
    have hrest := ih fun x hx => h x (List.mem_cons_of_mem a hx)
    simp [listMapM, ha, hrest]

theorem listMapM_map_g {α β γ : Type} {f : β → Option γ} {e : α → β} {g : α → γ}
    (h : ∀ a, f (e a) = some (g a)) (xs : List α) :
    listMapM f (xs.map e) = some (xs.map g) := by
  induction xs with
  | nil => rfl
  | cons a as ih => simp [listMapM, h, ih]

theorem listMapM_eq_none_iff {α β : Type} (f : α → Option β) (xs : List α) :
    listMapM f xs = none ↔ ∃ a ∈ xs, f a = none := by
  induction xs with
  | nil => simp [listMapM]
  | cons a as ih =>
    constructor
    · intro h
      simp only [listMapM] at h
      rcases hfa : f a with _ | b
      · exact ⟨a, List.mem_cons_self a as, hfa⟩
      · rw [hfa] at h
        rcases hrest : listMapM f as with _ | bs
        · obtain ⟨x, hx, hfx⟩ := ih.mp hrest
          exact ⟨x, List.mem_cons_of_mem a hx, hfx⟩
        · rw [hrest] at h
          cases h
    · rintro ⟨x, hx, hfx⟩
      simp only [listMapM]
      rcases List.mem_cons.mp hx with rfl | hx2
      · rw [hfx]
      · rcases hfa : f a with _ | b
        · rfl
        · rw [(ih.mpr ⟨x, hx2, hfx⟩ : listMapM f as = none)]

theorem listMapM_mem {α β : Type} {f : α → Option β} {a : α} :
    ∀ {xs : List α} {ys : List β}, listMapM f xs = some ys → a ∈ xs →
      ∃ b ∈ ys, f a = some b := by
  intro xs
  induction xs with
  | nil => intro ys _ ha; cases ha
  | cons x xs ih =>
    intro ys h ha
    simp only [listMapM] at h
    rcases hfx : f x with _ | b
    · rw [hfx] at h; cases h
    · rw [hfx] at h
      rcases hrest : listMapM f xs with _ | bs
      · rw [hrest] at h; cases h
      · rw [hrest] at h
        injection h with h
        subst h
        rcases List.mem_cons.mp ha with rfl | ha2
        · exact ⟨b, List.mem_cons_self b bs, hfx⟩
        · obtain ⟨b2, hb2, hf2⟩ := ih hrest ha2
          exact ⟨b2, List.mem_cons_of_mem b hb2, hf2⟩

theorem listMapM_map_rel {α β γ : Type} {f : α → Option β} {π : β → γ} {g : α → γ}
    (hrel : ∀ a b, f a = some b → π b = g a) :
    ∀ {xs : List α} {ys : List β}, listMapM f xs = some ys → ys.map π = xs.map g := by
  intro xs
  induction xs with
  | nil =>
    intro ys h
    simp only [listMapM] at h
    injection h with h
    subst h
    rfl
  | cons x xs ih =>
    intro ys h
    simp only [listMapM] at h
    rcases hfx : f x with _ | b
    · rw [hfx] at h; cases h
    · rw [hfx] at h
      rcases hrest : listMapM f xs with _ | bs
      · rw [hrest] at h; cases h
      · rw [hrest] at h
        injection h with h
        subst h
        simp [List.map_cons, hrel x b hfx, ih hrest]

theorem mem_dictInsert {β : Type} {d : List (String × β)} {k : String} {v : β}
    {q : String × β} (hq : q ∈ dictInsert d k v) : q ∈ d ∨ q = (k, v) := by
  unfold dictInsert at hq
  by_cases hany : d.any fun p => p.1 == k
  · rw [if_pos hany] at hq
    obtain ⟨p, hp, hpq⟩ := List.mem_map.mp hq
    by_cases hpk : p.1 == k
    · right; rw [if_pos hpk] at hpq; exact hpq.symm
    · left; rw [if_neg hpk] at hpq; exact hpq ▸ hp
  · rw [if_neg hany] at hq
    rcases List.mem_append.mp hq with h1 | h2
    · exact Or.inl h1
    · right; simpa using h2

theorem keys_dictInsert_sub {β : Type} {d : List (String × β)} {k k' : String} {v : β} :
    k' ∈ (dictInsert d k v).map Prod.fst ↔ k' ∈ d.map Prod.fst ∨ k' = k := by
  unfold dictInsert
  by_cases hany : d.any fun p => p.1 == k
  · rw [if_pos hany]
    have hmap : (d.map fun p => if p.1 == k then (k, v) else p).map Prod.fst
        = d.map Prod.fst := by
      rw [List.map_map]
      apply List.map_congr_left
      intro p _
      by_cases hpk : p.1 == k
      · simp only [Function.comp, if_pos hpk]
        exact (eq_of_beq hpk).symm
      · simp only [Function.comp, if_neg hpk]
    rw [hmap]
    constructor
    · exact Or.inl
    · rintro (h | rfl)
      · exact h
      · obtain ⟨p, hp, hpk⟩ := List.any_eq_true.mp hany
        exact List.mem_map.mpr ⟨p, hp, eq_of_beq hpk⟩
  · rw [if_neg hany]
    simp [List.mem_append]

theorem foldl_dictInsert_mem {β : Type} :
    ∀ (xs : List (String × β)) (d : List (String × β)) (q : String × β),
      q ∈ xs.foldl (fun d kv => dictInsert d kv.1 kv.2) d → q ∈ d ∨ q ∈ xs := by
  intro xs
  induction xs with
  | nil => intro d q h; exact Or.inl h
  | cons x xs ih =>
    intro d q h
    simp only [List.foldl_cons] at h
    rcases ih _ q h with hd | hxs
    · rcases mem_dictInsert hd with h1 | h2
      · exact Or.inl h1
      · right; rw [h2]; exact List.mem_cons_self x xs
    · right; exact List.mem_cons_of_mem x hxs

theorem mem_pyDict {β : Type} {xs : List (String × β)} {q : String × β}
    (h : q ∈ pyDict xs) : q ∈ xs := by
  rcases foldl_dictInsert_mem xs [] q h with h0 | h1
  · cases h0
  · exact h1

theorem keys_foldl_dictInsert {β : Type} :
    ∀ (xs : List (String × β)) (d : List (String × β)) (k' : String),
      k' ∈ (xs.foldl (fun d kv => dictInsert d kv.1 kv.2) d).map Prod.fst ↔
        k' ∈ d.map Prod.fst ∨ k' ∈ xs.map Prod.fst := by
  intro xs
  induction xs with
  | nil => intro d k'; simp
  | cons x xs ih =>
    intro d k'
    simp only [List.foldl_cons, ih, keys_dictInsert_sub, List.map_cons, List.mem_cons]
    tauto

theorem keys_pyDict {β : Type} {xs : List (String × β)} {k' : String} :
    k' ∈ (pyDict xs).map Prod.fst ↔ k' ∈ xs.map Prod.fst := by
  have := keys_foldl_dictInsert xs [] k'
  simpa [pyDict] using this

theorem dictInsert_of_not_mem {β : Type} {d : List (String × β)} {k : String} {v : β}
    (h : k ∉ d.map Prod.fst) : dictInsert d k v = d ++ [(k, v)] := by
  unfold dictInsert
  rw [if_neg]
  intro hany
  obtain ⟨p, hp, hpk⟩ := List.any_eq_true.mp hany
  exact h (List.mem_map.mpr ⟨p, hp, eq_of_beq hpk⟩)

theorem foldl_dictInsert_nodup {β : Type} :
    ∀ (xs : List (String × β)) (d : List (String × β)),
      (xs.map Prod.fst).Nodup → (∀ k ∈ xs.map Prod.fst, k ∉ d.map Prod.fst) →
      xs.foldl (fun d kv => dictInsert d kv.1 kv.2) d = d ++ xs := by
  intro xs
  induction xs with
  | nil => intro d _ _; simp
  | cons x xs ih =>
    intro d hnd hdisj
    simp only [List.foldl_cons]
    have hx1 : x.1 ∉ d.map Prod.fst :=
      hdisj x.1 (by simp)
    rw [dictInsert_of_not_mem hx1]
    rw [List.map_cons] at hnd
    have hnd1 := (List.nodup_cons.mp hnd).1
    have hnd2 : (xs.map Prod.fst).Nodup := (List.nodup_cons.mp hnd).2
    have hdisj2 : ∀ k ∈ xs.map Prod.fst, k ∉ (d ++ [(x.1, x.2)]).map Prod.fst := by
      intro k hk
      simp only [List.map_append, List.mem_append]
      rintro (hkd | hkx)
      · exact hdisj k (by simp [hk]) hkd
      · have hne : k ≠ x.1 := fun hkx1 => hnd1 (hkx1 ▸ hk)
        simp at hkx
        exact hne hkx
    rw [ih (d ++ [(x.1, x.2)]) hnd2 hdisj2]
    simp

theorem pyDict_of_nodup {β : Type} {xs : List (String × β)}
    (h : (xs.map Prod.fst).Nodup) : pyDict xs = xs := by
  have := foldl_dictInsert_nodup xs [] h (by simp)
  simpa [pyDict] using this

/-! ## Encode/decode inverse lemmas -/

theorem decRLEntry_enc (e : RLEntry) : decRLEntry (encRLEntry e) = some e := rfl

theorem decRLValue_enc (v : List RLEntry) : decRLValue (encRLValue v) = some v := by
  simpa [decRLValue, encRLValue] using listMapM_map_g decRLEntry_enc v

theorem decStrList_enc (l : List String) : decStrList (.arr (l.map .str)) = some l := by
  have := listMapM_map_g (f := fun j => match j with | .str s => some s | _ => none)
    (e := JVal.str) (g := fun s => s) (fun _ => rfl) l
  simpa [decStrList] using this

theorem decIntList_enc (l : List Int) : decIntList (.arr (l.map .int)) = some l := by
  have := listMapM_map_g (f := fun j => match j with | .int n => some n | _ => none)
    (e := JVal.int) (g := fun n => n) (fun _ => rfl) l
  simpa [decIntList] using this

theorem decIntList_encNorm (k : KeyLevels) :
    decIntList (encNormLevels k) = some (levelsOf k) := by
  cases k with
  | raw s => rfl
  | levels l => exact decIntList_enc l

theorem decFwdItem_to_dict (f : ForwardItem) : decFwdItem f.to_dict = some f := by
  cases f with
  | mk b r t => cases t <;> rfl

theorem decFwdList_enc (l : List ForwardItem) :
    decFwdList (.arr (l.map ForwardItem.to_dict)) = some l := by
  have := listMapM_map_g (f := decFwdItem) (e := ForwardItem.to_dict)
    (g := fun f => f) decFwdItem_to_dict l
  simpa [decFwdList] using this

theorem decRLMap_enc (l : List RateLimitType) :
    decRLMap (.obj (l.map fun i => (i.route, encRLValue i.value)))
      = some (l.map fun i => (i.route, i.value)) := by
  have := listMapM_map_g
    (f := fun kv : String × JVal => (decRLValue kv.2).map fun v => (kv.1, v))
    (e := fun i : RateLimitType => (i.route, encRLValue i.value))
    (g := fun i => (i.route, i.value)) (fun i => by simp [decRLValue_enc]) l
  simpa [decRLMap] using this

theorem decStrListIObj_enc (l : List (Int × List String)) :
    decStrListIObj (.iobj (l.map fun kv => (kv.1, .arr (kv.2.map .str))))
      = some l := by
  have := listMapM_map_g
    (f := fun kv : Int × JVal => (decStrList kv.2).map fun v => (kv.1, v))
    (e := fun kv : Int × List String => (kv.1, JVal.arr (kv.2.map JVal.str)))
    (g := fun kv => kv) (fun kv => by simp [decStrList_enc]) l
  simpa [decStrListIObj] using this

theorem decOpenaiKey_encNorm (l : List (String × KeyLevels)) :
    decOpenaiKey (.obj (l.map fun kv => (kv.1, encNormLevels (normalizeLevels kv.2))))
      = some (l.map fun kv => (kv.1, levelsOf (normalizeLevels kv.2))) := by
  have := listMapM_map_g
    (f := fun kv : String × JVal => (decIntList kv.2).map fun v => (kv.1, v))
    (e := fun kv : String × KeyLevels => (kv.1, encNormLevels (normalizeLevels kv.2)))
    (g := fun kv => (kv.1, levelsOf (normalizeLevels kv.2)))
    (fun kv => by simp [decIntList_encNorm]) l
  simpa [decOpenaiKey] using this

theorem strategy_ofStr_enc (s : Strategy) : Strategy.ofStr s.enc = some s := by
  cases s <;> rfl

theorem iterChunk_ofStr_enc (i : IterChunk) : IterChunk.ofStr i.enc = some i := by
  cases i <;> rfl

/-- Normalisation of the rate-limit dict comprehension when every rule
is kept and routes are distinct. -/
theorem rlDict_of_wf {l : List RateLimitType}
    (hvals : ∀ r ∈ l, r.route ≠ "" ∧ r.value ≠ [])
    (hnd : (l.map RateLimitType.route).Nodup) :
    rlDict l = l.map fun i => (i.route, encRLValue i.value) := by
  unfold rlDict
  have hfilter : (l.filter fun i => decide (i.route ≠ "") && decide (i.value ≠ [])) = l := by
    apply List.filter_eq_self.mpr
    intro a ha
    simp [hvals a ha]
  rw [hfilter]
  apply pyDict_of_nodup
  rw [List.map_map]
  simpa [Function.comp] using hnd

/-- A successful projection equals the explicit `projEnv` key list. -/
theorem convert_to_env_proj {c : Config} {ok : List (String × JVal)}
    (hok : listMapM ApiKey.encEntry c.api_key.openai_key = some ok) :
    Config.convert_to_env c = some (projEnv c ok) := by
  simp [Config.convert_to_env, ApiKey.convert_to_env, CacheConfig.convert_to_env,
    RateLimit.convert_to_env, Log.convert_to_env, hok, projEnv]

/-- Python `or` fallback on a non-empty list keeps the list. -/
theorem pyOrList_ne {α : Type} {a b : List α} (h : a ≠ []) : pyOrList a b = a := by
  cases a with
  | nil => exact absurd rfl h
  | cons x xs => rfl

/-- Mapping a structure back from its route/value pair is the
identity. -/
theorem map_mk_pairs (l : List RateLimitType) :
    ((l.map fun i => (i.route, i.value)).map fun kv => RateLimitType.mk kv.1 kv.2) = l := by
  rw [List.map_map]
  exact (List.map_congr_left fun i _ => rfl).trans (List.map_id l)

/-- The encoded `openai_key` entry keeps its key. -/
theorem encEntry_fst {kv : String × KeyLevels} {b : String × JVal}
    (h : ApiKey.encEntry kv = some b) : b.1 = kv.1 := by
  cases hkl : kv.2 with
  | raw s =>
    simp only [ApiKey.encEntry, hkl] at h
    rcases hp : parseLevels s with _ | l
    · rw [hp] at h; cases h
    · rw [hp] at h
      injection h with h
      rw [← h]
  | levels l => simp [ApiKey.encEntry, hkl] at h

/-- A dropped rule's route/value pair never appears in the projected
rate-limit dictionary. -/
theorem rlDict_absent {l : List RateLimitType} {i : RateLimitType}
    (hbad : i.route = "" ∨ i.value = []) :
    (i.route, encRLValue i.value) ∉ rlDict l := by
  intro hmem
  have hsrc := mem_pyDict hmem
  obtain ⟨j, hj, hjq⟩ := List.mem_map.mp hsrc
  have hkept := (List.mem_filter.mp hj).2
  simp only [Bool.and_eq_true, decide_eq_true_eq] at hkept
  injection hjq with hr hv
  rcases hbad with hroute | hvalue
  · exact hkept.1 (hr.trans hroute)
  · apply hkept.2
    rw [hvalue] at hv
    simpa [encRLValue] using hv

/-- A kept rule's route appears among the projected rate-limit
dictionary's keys. -/
theorem rlDict_present {l : List RateLimitType} {i : RateLimitType}
    (hmem : i ∈ l) (hr : i.route ≠ "") (hv : i.value ≠ []) :
    i.route ∈ (rlDict l).map Prod.fst := by
  apply keys_pyDict.mpr
  rw [List.map_map]
  exact List.mem_map.mpr ⟨i, List.mem_filter.mpr ⟨hmem, by simp [hr, hv]⟩, rfl⟩

/-- C1 (amended).  Hydrating a fresh default configuration from the
projection of `C` reproduces `C` field-for-field — with the provider-key
level strings reproduced in normalised form (each level string replaced
by its parsed integer sequence), and the proxy field reproduced both
when empty and when non-empty — provided `C` avoids the code's lossy
cases: every provider-key value is a parsable level string and the
provider-key, forward-key and level-model maps are non-empty; every
rate-limit rule has a non-empty route and non-empty limits, routes are
distinct and both rule lists are non-empty; the cache route list is
non-empty and duplicate-free; the cache backend, cache storage location
and global rate-limit expression are non-empty; and the rate-limit
backend and default-stream-response fields hold their defaults (the
projector never emits the former and hydration never reads the
latter). -/
theorem roundtrip_amended (C : Config)
    (h1 : ∀ kv ∈ C.api_key.openai_key, rawParsable kv.2 = true)
    (h2 : C.api_key.openai_key ≠ [])
    (h3 : C.api_key.forward_key ≠ [])
    (h4 : C.api_key.level ≠ [])
    (h5 : C.rate_limit.backend = "")
    (h6 : ∀ r ∈ C.rate_limit.token_rate_limit, r.route ≠ "" ∧ r.value ≠ [])
    (h7 : (C.rate_limit.token_rate_limit.map RateLimitType.route).Nodup)
    (h8 : C.rate_limit.token_rate_limit ≠ [])
    (h9 : ∀ r ∈ C.rate_limit.req_rate_limit, r.route ≠ "" ∧ r.value ≠ [])
    (h10 : (C.rate_limit.req_rate_limit.map RateLimitType.route).Nodup)
    (h11 : C.rate_limit.req_rate_limit ≠ [])
    (h12 : C.cache.routes ≠ [])
    (h13 : C.cache.routes.Nodup)
    (h14 : C.cache.backend ≠ "")
    (h15 : C.cache.root_path_or_url ≠ "")
    (h16 : C.rate_limit.global_rate_limit ≠ "")
    (h17 : C.default_stream_response = true) :
    ∃ env, Config.convert_to_env C = some env ∧
      Config.come_from_env defaultConfig env = some (normalizeConfig C) := by
  have hfix : ∀ kv ∈ C.api_key.openai_key,
      KeyLevels.levels (levelsOf (normalizeLevels kv.2)) = normalizeLevels kv.2 := by
    intro kv hkv
    have hr := h1 kv hkv
    cases hkl : kv.2 with
    | levels l => rw [hkl] at hr; simp [rawParsable] at hr
    | raw s =>
      rw [hkl] at hr
      simp only [rawParsable] at hr
      rcases hp : parseLevels s with _ | l
      · rw [hp] at hr; simp at hr
      · simp [normalizeLevels, hp, levelsOf]
  have hok : listMapM ApiKey.encEntry C.api_key.openai_key
      = some (C.api_key.openai_key.map fun kv =>
          (kv.1, encNormLevels (normalizeLevels kv.2))) := by
    apply listMapM_pointwise
    intro kv hkv
    have hr := h1 kv hkv
    cases hkl : kv.2 with
    | levels l => rw [hkl] at hr; simp [rawParsable] at hr
    | raw s =>
      rw [hkl] at hr
      simp only [rawParsable] at hr
      rcases hp : parseLevels s with _ | l
      · rw [hp] at hr; simp at hr
      · simp [ApiKey.encEntry, hkl, hp, normalizeLevels, encNormLevels]
  refine ⟨_, convert_to_env_proj hok, ?_⟩
  set ok := C.api_key.openai_key.map fun kv =>
    (kv.1, encNormLevels (normalizeLevels kv.2)) with hokdef
  set E := projEnv C ok with hEdef
  have hTok : tokenRateLimitConf E
      = some (C.rate_limit.token_rate_limit.map fun i => (i.route, i.value)) := by
    simp [tokenRateLimitConf, hEdef, projEnv, envGet, rlDict_of_wf h6 h7, decRLMap_enc]
  have hReq : reqRateLimitDict E
      = some (C.rate_limit.req_rate_limit.map fun i => (i.route, i.value)) := by
    simp [reqRateLimitDict, hEdef, projEnv, envGet, rlDict_of_wf h9 h10, decRLMap_enc]
  have hOkc : openaiKeyConf E
      = some (C.api_key.openai_key.map fun kv =>
          (kv.1, levelsOf (normalizeLevels kv.2))) := by
    simp [openaiKeyConf, hEdef, hokdef, projEnv, envGet, decOpenaiKey_encNorm]
  have hFkc : levelToFwdKey E = some C.api_key.forward_key := by
    simp [levelToFwdKey, hEdef, projEnv, envGet, decStrListIObj_enc]
  have hLm : levelModelsConf E = some C.api_key.level := by
    simp [levelModelsConf, hEdef, projEnv, envGet, decStrListIObj_enc]
  have hCrs : cacheRouteSet E = some C.cache.routes := by
    simp [cacheRouteSet, hEdef, projEnv, envGet, decStrList_enc, List.Nodup.dedup h13]
  have hFwd : forwardConf E = some C.forward := by
    simp [forwardConf, hEdef, projEnv, envGet, decFwdList_enc]
  have hCB : envStrD E "CACHE_BACKEND" "LevelDB" = C.cache.backend := by
    simp [envStrD, hEdef, projEnv, envGet, h14]
  have hCR : envStrD E "CACHE_ROOT_PATH_OR_URL" "./FLAXKV_DB" = C.cache.root_path_or_url := by
    simp [envStrD, hEdef, projEnv, envGet, h15]
  have hGRL : envStrD E "GLOBAL_RATE_LIMIT" "inf" = C.rate_limit.global_rate_limit := by
    simp [envStrD, hEdef, projEnv, envGet, h16]
  have hRLB : envStrD E "RATE_LIMIT_BACKEND" "" = "" := by
    by_cases hp : C.proxy = "" <;> simp [envStrD, hEdef, projEnv, envGet, hp]
  have hPx : envStrD E "PROXY" "" = C.proxy := by
    by_cases hp : C.proxy = "" <;> simp [envStrD, hEdef, projEnv, envGet, hp]
  have hStrat : strategyFromEnv E = C.rate_limit.strategy := by
    simp [strategyFromEnv, hEdef, projEnv, envGet, strategy_ofStr_enc]
  have hIter : iterChunkFromEnv E = C.rate_limit.iter_chunk := by
    simp [iterChunkFromEnv, hEdef, projEnv, envGet, iterChunk_ofStr_enc]
  have hDcv : envBoolD E "DEFAULT_REQUEST_CACHING_VALUE" true
      = C.cache.default_request_caching_value := by
    simp [envBoolD, hEdef, projEnv, envGet]
  have hCo : envBoolD E "CACHE_OPENAI" false = C.cache.openai := by
    simp [envBoolD, hEdef, projEnv, envGet]
  have hCg : envBoolD E "CACHE_GENERAL" false = C.cache.general := by
    simp [envBoolD, hEdef, projEnv, envGet]
  have hLg : envBoolD E "LOG_GENERAL" true = C.log.general := by
    simp [envBoolD, hEdef, projEnv, envGet]
  have hLo : envBoolD E "LOG_OPENAI" true = C.log.openai := by
    simp [envBoolD, hEdef, projEnv, envGet]
  have hTz : envGet E "TZ" = some (.str C.timezone) := by
    simp [hEdef, projEnv, envGet]
  have hTmo : envIntD E "TIMEOUT" 6 = C.timeout := by
    simp [envIntD, hEdef, projEnv, envGet]
  have hBm : envBoolD E "BENCHMARK_MODE" false = C.benchmark_mode := by
    simp [envBoolD, hEdef, projEnv, envGet]
  have hmapfix : (C.api_key.openai_key.map fun kv =>
        (kv.1, levelsOf (normalizeLevels kv.2))).map
          (fun kv => (kv.1, KeyLevels.levels kv.2))
      = C.api_key.openai_key.map fun kv => (kv.1, normalizeLevels kv.2) := by
    rw [List.map_map]
    exact List.map_congr_left fun kv hkv => by
      simp [Function.comp, hfix kv hkv]
  have hne : (C.api_key.openai_key.map fun kv =>
      (kv.1, levelsOf (normalizeLevels kv.2))).isEmpty = false := by
    rcases hcase : C.api_key.openai_key with _ | ⟨a, as⟩
    · exact absurd hcase h2
    · rfl
  unfold Config.come_from_env
  rw [hTok, hReq, hOkc, hFkc, hLm, hCrs, hFwd]
  simp only [Option.bind_eq_bind, Option.some_bind]
  rw [hCB, hCR, hGRL, hRLB, hPx, hStrat, hIter, hDcv, hCo, hCg, hLg, hLo, hTz,
    hTmo, hBm, hne, map_mk_pairs]
  simp only [Bool.false_eq_true, if_false, hmapfix, map_mk_pairs,
    pyOrList_ne h3, pyOrList_ne h4, pyOrList_ne h8, pyOrList_ne h11, pyOrList_ne h12,
    Option.some.injEq]
  simp [normalizeConfig, defaultConfig, defaultApiKey, defaultCacheConfig,
    defaultRateLimit, defaultLog, pyOrStr, h5, h17]
  rw [← h5]

/-- Witness for C1 (amended): the default-shaped configuration with the
provider-key level string `"0"` satisfies every hypothesis and
round-trips onto its normalised form. -/
theorem roundtrip_amended_witness :
    ∃ env, Config.convert_to_env cDefaultRaw = some env ∧
      Config.come_from_env defaultConfig env = some (normalizeConfig cDefaultRaw) :=
  roundtrip_amended cDefaultRaw (by decide) (by decide) (by decide) (by decide)
    (by decide) (by decide) (by decide) (by decide) (by decide) (by decide)
    (by decide) (by decide) (by decide) (by decide) (by decide) (by decide)
    (by decide)

/-- Counterexample to C1 as stated: for `cStreamOff` (default-shaped,
`default_stream_response = false`) projection succeeds, the hydrated
configuration differs from the input on `default_stream_response`
(hydration never reads that key back), and the difference is not the
claim's proxy exception — the proxy field itself round-trips. -/
theorem roundtrip_counterexample :
    (Config.convert_to_env cStreamOff).isSome = true ∧
    cStreamOff.default_stream_response = false ∧
    Option.map Config.default_stream_response
        (Config.come_from_env defaultConfig
          ((Config.convert_to_env cStreamOff).getD [])) = some true ∧
    Option.map Config.proxy
        (Config.come_from_env defaultConfig
          ((Config.convert_to_env cStreamOff).getD [])) = some cStreamOff.proxy := by
  decide

/-- C2.  With every provider-key value a string (the projection path's
required type), projection returns an error exactly when some
authorization-level string has a non-numeric piece after splitting on
the comma delimiters; and on success the encoded provider-key
dictionary keeps every key — malformed entries are never silently
dropped, they abort the whole projection. -/
theorem projection_error_iff (C : Config)
    (hall : ∀ kv ∈ C.api_key.openai_key, kv.2.isRaw = true) :
    (Config.convert_to_env C = none ↔
      ∃ kv ∈ C.api_key.openai_key, ∃ s,
        kv.2 = KeyLevels.raw s ∧ parseLevels s = none) ∧
    (∀ env, Config.convert_to_env C = some env →
      ∃ entries, envGet env "OPENAI_API_KEY_CONFIG" = some (JVal.obj entries) ∧
        entries.map Prod.fst = C.api_key.openai_key.map Prod.fst) := by
  constructor
  · have hnone : Config.convert_to_env C = none ↔
        listMapM ApiKey.encEntry C.api_key.openai_key = none := by
      simp [Config.convert_to_env, ApiKey.convert_to_env, Option.map_eq_none']
    rw [hnone, listMapM_eq_none_iff]
    constructor
    · rintro ⟨kv, hkv, hnone2⟩
      have hr := hall kv hkv
      cases hkl : kv.2 with
      | levels l => rw [hkl] at hr; simp [KeyLevels.isRaw] at hr
      | raw s =>
        refine ⟨kv, hkv, s, hkl, ?_⟩
        simp only [ApiKey.encEntry, hkl, Option.map_eq_none'] at hnone2
        exact hnone2
    · rintro ⟨kv, hkv, s, hs, hnone2⟩
      exact ⟨kv, hkv, by simp [ApiKey.encEntry, hs, hnone2]⟩
  · intro env henv
    rcases hlm : listMapM ApiKey.encEntry C.api_key.openai_key with _ | ok
    · simp [Config.convert_to_env, ApiKey.convert_to_env, hlm] at henv
    · have hp := convert_to_env_proj hlm
      rw [henv] at hp
      injection hp with hp
      subst hp
      refine ⟨ok, by simp [projEnv, envGet], ?_⟩
      exact listMapM_map_rel (fun kv b hb => encEntry_fst hb) hlm

/-- Witness for C2 at the default-shaped configuration with level
string `"0"`. -/
theorem projection_error_iff_witness :
    ((Config.convert_to_env cDefaultRaw = none ↔
      ∃ kv ∈ cDefaultRaw.api_key.openai_key, ∃ s,
        kv.2 = KeyLevels.raw s ∧ parseLevels s = none) ∧
    (∀ env, Config.convert_to_env cDefaultRaw = some env →
      ∃ entries, envGet env "OPENAI_API_KEY_CONFIG" = some (JVal.obj entries) ∧
        entries.map Prod.fst = cDefaultRaw.api_key.openai_key.map Prod.fst)) :=
  projection_error_iff cDefaultRaw (by decide)

/-- C3.  A provider-key entry whose value is a delimiter-separated
numeric level string (ASCII commas, full-width commas, or a mix) is
parsed into the corresponding integer sequence in the encoded
`OPENAI_API_KEY_CONFIG` output. -/
theorem provider_key_normalization (C : Config) (k s : String) (l : List Int)
    (hmem : (k, KeyLevels.raw s) ∈ C.api_key.openai_key)
    (hparse : parseLevels s = some l)
    (env : List (String × JVal)) (henv : Config.convert_to_env C = some env) :
    ∃ entries, envGet env "OPENAI_API_KEY_CONFIG" = some (JVal.obj entries) ∧
      (k, JVal.arr (l.map JVal.int)) ∈ entries := by
  rcases hlm : listMapM ApiKey.encEntry C.api_key.openai_key with _ | ok
  · simp [Config.convert_to_env, ApiKey.convert_to_env, hlm] at henv
  · have hp := convert_to_env_proj hlm
    rw [henv] at hp
    injection hp with hp
    subst hp
    refine ⟨ok, by simp [projEnv, envGet], ?_⟩
    obtain ⟨b, hb, hfb⟩ := listMapM_mem hlm hmem
    have hbv : b = (k, JVal.arr (l.map JVal.int)) := by
      simp only [ApiKey.encEntry, hparse, Option.map_some'] at hfb
      injection hfb with hfb
      exact hfb.symm
    exact hbv ▸ hb

/-- Witness for C3: the spec's example `{"sk-a": "1, 2，3"}` with mixed
ASCII and full-width commas encodes to the integer sequence
`[1, 2, 3]`. -/
theorem provider_key_normalization_witness :
    ∃ entries,
      envGet ((Config.convert_to_env cMixedCommas).getD []) "OPENAI_API_KEY_CONFIG"
        = some (JVal.obj entries) ∧
      ("sk-a", JVal.arr ([1, 2, 3].map JVal.int)) ∈ entries :=
  provider_key_normalization cMixedCommas "sk-a" "1, 2，3" [1, 2, 3]
    (by decide) (by decide) ((Config.convert_to_env cMixedCommas).getD []) (by rfl)

/-- C4.  In any successful projection, the token and request rate-limit
keys hold the filtered dictionaries: a rule with an empty route or an
empty limits list contributes no entry (while the in-memory model,
which projection does not modify, still contains it), and every rule
with a non-empty route and non-empty limits has its route among the
projected keys. -/
theorem rate_limit_filtering (C : Config) (env : List (String × JVal))
    (henv : Config.convert_to_env C = some env) (i : RateLimitType) :
    envGet env "TOKEN_RATE_LIMIT"
        = some (.obj (rlDict C.rate_limit.token_rate_limit)) ∧
    envGet env "REQ_RATE_LIMIT"
        = some (.obj (rlDict C.rate_limit.req_rate_limit)) ∧
    (i ∈ C.rate_limit.token_rate_limit → (i.route = "" ∨ i.value = []) →
      (i.route, encRLValue i.value) ∉ rlDict C.rate_limit.token_rate_limit) ∧
    (i ∈ C.rate_limit.token_rate_limit → i.route ≠ "" → i.value ≠ [] →
      i.route ∈ (rlDict C.rate_limit.token_rate_limit).map Prod.fst) ∧
    (i ∈ C.rate_limit.req_rate_limit → (i.route = "" ∨ i.value = []) →
      (i.route, encRLValue i.value) ∉ rlDict C.rate_limit.req_rate_limit) ∧
    (i ∈ C.rate_limit.req_rate_limit → i.route ≠ "" → i.value ≠ [] →
      i.route ∈ (rlDict C.rate_limit.req_rate_limit).map Prod.fst) := by
  rcases hlm : listMapM ApiKey.encEntry C.api_key.openai_key with _ | ok
  · simp [Config.convert_to_env, ApiKey.convert_to_env, hlm] at henv
  · have hp := convert_to_env_proj hlm
    rw [henv] at hp
    injection hp with hp
    subst hp
    refine ⟨by simp [projEnv, envGet], by simp [projEnv, envGet], ?_, ?_, ?_, ?_⟩
    · exact fun _ hbad => rlDict_absent hbad
    · exact fun hmem hr hv => rlDict_present hmem hr hv
    · exact fun _ hbad => rlDict_absent hbad
    · exact fun hmem hr hv => rlDict_present hmem hr hv

/-- Witness for C4 at `cFilterDemo`, whose token rate-limit list holds
an empty-route rule, an empty-limits rule and one kept rule. -/
theorem rate_limit_filtering_witness :
    envGet ((Config.convert_to_env cFilterDemo).getD []) "TOKEN_RATE_LIMIT"
        = some (.obj (rlDict cFilterDemo.rate_limit.token_rate_limit)) ∧
    envGet ((Config.convert_to_env cFilterDemo).getD []) "REQ_RATE_LIMIT"
        = some (.obj (rlDict cFilterDemo.rate_limit.req_rate_limit)) ∧
    (RateLimitType.mk "" [⟨0, "60/second"⟩] ∈ cFilterDemo.rate_limit.token_rate_limit →
      ((RateLimitType.mk "" [⟨0, "60/second"⟩]).route = "" ∨
        (RateLimitType.mk "" [⟨0, "60/second"⟩]).value = []) →
      ((RateLimitType.mk "" [⟨0, "60/second"⟩]).route,
        encRLValue (RateLimitType.mk "" [⟨0, "60/second"⟩]).value)
        ∉ rlDict cFilterDemo.rate_limit.token_rate_limit) ∧
    (RateLimitType.mk "" [⟨0, "60/second"⟩] ∈ cFilterDemo.rate_limit.token_rate_limit →
      (RateLimitType.mk "" [⟨0, "60/second"⟩]).route ≠ "" →
      (RateLimitType.mk "" [⟨0, "60/second"⟩]).value ≠ [] →
      (RateLimitType.mk "" [⟨0, "60/second"⟩]).route
        ∈ (rlDict cFilterDemo.rate_limit.token_rate_limit).map Prod.fst) ∧
    (RateLimitType.mk "" [⟨0, "60/second"⟩] ∈ cFilterDemo.rate_limit.req_rate_limit →
      ((RateLimitType.mk "" [⟨0, "60/second"⟩]).route = "" ∨
        (RateLimitType.mk "" [⟨0, "60/second"⟩]).value = []) →
      ((RateLimitType.mk "" [⟨0, "60/second"⟩]).route,
        encRLValue (RateLimitType.mk "" [⟨0, "60/second"⟩]).value)
        ∉ rlDict cFilterDemo.rate_limit.req_rate_limit) ∧
    (RateLimitType.mk "" [⟨0, "60/second"⟩] ∈ cFilterDemo.rate_limit.req_rate_limit →
      (RateLimitType.mk "" [⟨0, "60/second"⟩]).route ≠ "" →
      (RateLimitType.mk "" [⟨0, "60/second"⟩]).value ≠ [] →
      (RateLimitType.mk "" [⟨0, "60/second"⟩]).route
        ∈ (rlDict cFilterDemo.rate_limit.req_rate_limit).map Prod.fst) :=
  rate_limit_filtering cFilterDemo ((Config.convert_to_env cFilterDemo).getD [])
    (by rfl) (RateLimitType.mk "" [⟨0, "60/second"⟩])

/-- C5.  A successful projection's key list is exactly the documented
enumeration, with the proxy key appended precisely when the proxy field
is non-empty: every documented key is emitted, no undocumented key is
emitted, and an empty proxy is omitted entirely rather than emitted as
an empty string. -/
theorem projected_key_set (C : Config) (env : List (String × JVal))
    (henv : Config.convert_to_env C = some env) :
    env.map Prod.fst = documentedKeys ++ (if C.proxy = "" then [] else ["PROXY"]) ∧
    (("PROXY" ∈ env.map Prod.fst) ↔ C.proxy ≠ "") := by
  rcases hlm : listMapM ApiKey.encEntry C.api_key.openai_key with _ | ok
  · simp [Config.convert_to_env, ApiKey.convert_to_env, hlm] at henv
  · have hp := convert_to_env_proj hlm
    rw [henv] at hp
    injection hp with hp
    subst hp
    constructor
    · by_cases hpx : C.proxy = "" <;> simp [projEnv, documentedKeys, hpx]
    · by_cases hpx : C.proxy = "" <;> simp [projEnv, hpx]

/-- Witness for C5 at `cProxyOn` (non-empty proxy). -/
theorem projected_key_set_witness :
    ((Config.convert_to_env cProxyOn).getD []).map Prod.fst
        = documentedKeys ++ (if cProxyOn.proxy = "" then [] else ["PROXY"]) ∧
    (("PROXY" ∈ ((Config.convert_to_env cProxyOn).getD []).map Prod.fst) ↔
      cProxyOn.proxy ≠ "") :=
  projected_key_set cProxyOn ((Config.convert_to_env cProxyOn).getD []) (by rfl)

theorem envGet_append_right {β : Type} {l : List (String × β)} {k : String}
    (h : ∀ p ∈ l, p.1 ≠ k) (r : List (String × β)) :
    envGet (l ++ r) k = envGet r k := by
  induction l with
  | nil => rfl
  | cons p e ih =>
    have hp := h p (List.mem_cons_self p e)
    simp only [List.cons_append, envGet, if_neg hp]
    exact ih fun q hq => h q (List.mem_cons_of_mem p hq)

theorem envGet_map_replace {β : Type} {l : List (String × β)} {k : String} {v : β}
    (h : l.any (fun p => p.1 == k) = true) :
    envGet (l.map fun p => if p.1 == k then (k, v) else p) k = some v := by
  induction l with
  | nil => simp at h
  | cons p e ih =>
    by_cases hpk : p.1 == k
    · rw [List.map_cons, if_pos hpk]
      simp [envGet]
    · have hpk2 : (p.1 == k) = false := by simpa using hpk
      have hp1 : p.1 ≠ k := by simpa using hpk
      have htail : e.any (fun p => p.1 == k) = true := by
        simpa [List.any_cons, hpk2] using h
      rw [List.map_cons, if_neg hpk]
      simp only [envGet, if_neg hp1]
      exact ih htail

theorem envGet_dictInsert {β : Type} (env : List (String × β)) (k : String) (v : β) :
    envGet (dictInsert env k v) k = some v := by
  unfold dictInsert
  by_cases hany : env.any fun p => p.1 == k
  · rw [if_pos hany]
    exact envGet_map_replace hany
  · rw [if_neg hany]
    have hall : ∀ p ∈ env, p.1 ≠ k := by
      intro p hp hpk
      exact hany (List.any_eq_true.mpr ⟨p, hp, by simp [hpk]⟩)
    rw [envGet_append_right hall]
    simp [envGet]

/-- C6.  When the forwarder never becomes healthy within the 10
time-unit bound, `start` reaches `Failed` and raises a fatal startup
error — except on the Windows platform family, where the failure is
suppressed and the supervisor reaches `Running`. -/
theorem startup_timeout (sysName : String) (health : Nat → Bool)
    (hfail : ∀ t, t < 10 → health t = false) :
    startUvicorn sysName health =
      if sysName = "Windows" then (SupState.running, false)
      else (SupState.failed, true) := by
  have hw : healthyWithin health 10 = false := by
    rw [healthyWithin]
    rw [List.any_eq_false]
    intro x hx
    simp [hfail x (List.mem_range.mp hx)]
  unfold startUvicorn waitForServeStart
  rw [hw]
  by_cases hsys : sysName = "Windows" <;> simp [hsys]

/-- Witness for C6: an always-unhealthy endpoint, on a non-Windows and
on a Windows platform. -/
theorem startup_timeout_witness :
    startUvicorn "Linux" (fun _ => false)
      = (if "Linux" = "Windows" then (SupState.running, false)
         else (SupState.failed, true)) ∧
    startUvicorn "Windows" (fun _ => false)
      = (if "Windows" = "Windows" then (SupState.running, false)
         else (SupState.failed, true)) :=
  ⟨startup_timeout "Linux" (fun _ => false) (fun _ _ => rfl),
   startup_timeout "Windows" (fun _ => false) (fun _ _ => rfl)⟩

/-- C7.  Stopping a live handle sends the interrupt signal and ends
`Stopped` within the target's grace period (15 time-units for the
forwarder, 5 for the dashboard), with a forced kill exactly when the
process does not exit voluntarily within the grace period; stopping an
already-exited handle is a no-op, not an error. -/
theorem graceful_stop (tgt : StopTarget) (p : ProcHandle) :
    (p.pollExited = false →
      (stopProc (graceOf tgt) p).signalSent = true ∧
      (stopProc (graceOf tgt) p).finalStopped = true ∧
      (stopProc (graceOf tgt) p).elapsed ≤ graceOf tgt ∧
      ((stopProc (graceOf tgt) p).killed = true ↔
        ∀ t, p.exitAfterSignal = some t → graceOf tgt < t)) ∧
    (p.pollExited = true →
      stopProc (graceOf tgt) p = ⟨true, 0, false, false⟩) := by
  constructor
  · intro hlive
    rcases he : p.exitAfterSignal with _ | t
    · have hout : stopProc (graceOf tgt) p = ⟨true, graceOf tgt, true, true⟩ := by
        unfold stopProc
        rw [hlive, he]
        simp
      rw [hout]
      simp
    · have hout : stopProc (graceOf tgt) p =
          if t ≤ graceOf tgt then ⟨true, t, true, false⟩
          else ⟨true, graceOf tgt, true, true⟩ := by
        unfold stopProc
        rw [hlive, he]
        simp
      rw [hout]
      by_cases ht : t ≤ graceOf tgt
      · rw [if_pos ht]
        refine ⟨rfl, rfl, ht, ?_⟩
        simp only [Bool.false_eq_true, false_iff]
        intro hall
        exact absurd ht (Nat.not_le.mpr (hall t rfl))
      · rw [if_neg ht]
        refine ⟨rfl, rfl, Nat.le_refl _, ?_⟩
        refine ⟨fun _ u hu => ?_, fun _ => rfl⟩
        injection hu with hu
        exact hu ▸ Nat.not_le.mp ht
  · intro hexit
    unfold stopProc
    simp [hexit]

/-- Witness for C7: the forwarder target against a live process that
ignores the interrupt signal. -/
theorem graceful_stop_witness :
    (stopProc (graceOf StopTarget.forwarder) ⟨false, none⟩).signalSent = true ∧
    (stopProc (graceOf StopTarget.forwarder) ⟨false, none⟩).finalStopped = true ∧
    (stopProc (graceOf StopTarget.forwarder) ⟨false, none⟩).elapsed
      ≤ graceOf StopTarget.forwarder ∧
    ((stopProc (graceOf StopTarget.forwarder) ⟨false, none⟩).killed = true ↔
      ∀ t, (ProcHandle.mk false none).exitAfterSignal = some t →
        graceOf StopTarget.forwarder < t) :=
  (graceful_stop StopTarget.forwarder ⟨false, none⟩).1 rfl

/-- C8.  During `restart(forwarder)` — `stop` run to completion, then
`start` — at no instant are two forwarder processes simultaneously
live. -/
theorem restart_no_overlap (p : ProcHandle) (t : Nat) : liveForwarders p t ≤ 1 := by
  unfold liveForwarders oldLiveAt newLiveAt
  split
  · split
    · rename_i h1 h2
      simp only [Bool.and_eq_true, decide_eq_true_eq] at h1 h2
      omega
    · omega
  · split
    · omega
    · omega

/-- C9.  `convert` with no log folder but a target path is a usage
error raised before any file conversion is performed; with neither
argument it converts every configured route's default log location. -/
theorem convert_usage (routeNames : List String) (x : String) :
    convertCmd routeNames none (some x)
        = .error "target_path must be None when log_folder is None" ∧
    actionsOf (convertCmd routeNames none (some x)) = [] ∧
    convertCmd routeNames none none
        = .ok (routeNames.map fun p =>
            ConvAction.convertFolder ("./Log/" ++ p ++ "/chat")
              (some ("./Log/chat_" ++ p ++ ".json"))) :=
  ⟨rfl, rfl, rfl⟩

/-- C10.  `run` on the Windows platform family sets the process-wide
`TZ` entry to the empty string before launching the server, overwriting
any previous value; on every other platform it leaves the environment
unchanged. -/
theorem run_tz_effect (env : List (String × String)) :
    envGet (runEnvAtLaunch "Windows" env) "TZ" = some "" ∧
    (∀ sysName, sysName ≠ "Windows" → runEnvAtLaunch sysName env = env) := by
  constructor
  · unfold runEnvAtLaunch
    rw [if_pos rfl]
    exact envGet_dictInsert env "TZ" ""
  · intro s hs
    unfold runEnvAtLaunch
    rw [if_neg hs]

/-- Witness for C10: an environment with a previously projected
timezone, on Windows and on Linux. -/
theorem run_tz_effect_witness :
    envGet (runEnvAtLaunch "Windows" [("TZ", "Asia/Shanghai")]) "TZ" = some "" ∧
    runEnvAtLaunch "Linux" [("TZ", "Asia/Shanghai")] = [("TZ", "Asia/Shanghai")] :=
  ⟨(run_tz_effect [("TZ", "Asia/Shanghai")]).1,
   (run_tz_effect [("TZ", "Asia/Shanghai")]).2 "Linux" (by decide)⟩

end OpenaiForward
